import Mathlib

/-!
Shallow embedding of the `ansi-optimizer-rs` parsing core: the allocation-free
string lexer (`src/lex.rs`) and the ANSI escape-sequence grammar (`src/ansi.rs`).
Strings are modelled as `List Char`; the lexer's two `&str` views (`cursor` and
`cursor_saved`) become two lists, where a view into the original buffer is the
suffix it denotes.  Every fallible operation returns its result together with
the successor lexer state, mirroring Rust's `&mut self` methods that may leave
partial state changes behind on error.
-/

deriving instance DecidableEq for Except

namespace AnsiOpt

/-- Errors of the lexer, from `lex::Error` in src/lex.rs. -/
inductive LexError where
  | EOF
  | Unexpected
deriving DecidableEq, Repr

/-- The single crate-level error, from `error::Error` in src/error.rs. -/
inductive PError where
  | InvalidSequence
deriving DecidableEq, Repr

/-- Conversion `impl From<lex::Error> for error::Error`: every lexer error maps to `InvalidSequence`. -/
def LexError.toPError (_ : LexError) : PError := .InvalidSequence

/-- The lexer of src/lex.rs: `cursor` is the remaining view, `cursor_saved` the marked view. -/
structure Lexer where
  cursor : List Char
  cursor_saved : List Char
deriving DecidableEq, Repr

/-- Constructor `Lexer::new`: both views start at the whole input. -/
def Lexer.new (s : List Char) : Lexer := ⟨s, s⟩

/-- The scanning loop of `Lexer::extract`: advance past the leading characters
matching the pattern and return the remaining suffix (the `last_iter` position). -/
def extractLoop (p : Char → Bool) : List Char → List Char
  | [] => []
  | c :: cs => if p c then extractLoop p cs else c :: cs

/-- Operation `Lexer::extract`: errors with `EOF` on an exhausted cursor; otherwise takes the
maximal run matched by the loop, computing the extracted slice from the length
difference as the Rust code does. -/
def Lexer.extract (l : Lexer) (p : Char → Bool) : Except LexError (List Char) × Lexer :=
  if l.cursor.isEmpty then (.error .EOF, l)
  else
    let remaining := extractLoop p l.cursor
    let extracted := l.cursor.take (l.cursor.length - remaining.length)
    (.ok extracted, { l with cursor := remaining })

/-- Operation `Lexer::extract_one`: one-character extraction, `Unexpected` on mismatch
(with no state change), `EOF` on exhausted input. -/
def Lexer.extract_one (l : Lexer) (p : Char → Bool) : Except LexError (List Char) × Lexer :=
  match l.cursor with
  | [] => (.error .EOF, l)
  | c :: rest =>
    if p c then (.ok [c], { l with cursor := rest })
    else (.error .Unexpected, l)

/-- The iteration of `Lexer::skip`: `none` when the input runs out before `n`
characters were stepped over, otherwise the suffix after `n` characters. -/
def skipLoop : List Char → Nat → Option (List Char)
  | cs, 0 => some cs
  | [], _ + 1 => none
  | _ :: cs, n + 1 => skipLoop cs n

/-- Operation `Lexer::skip`: advances `n` characters all-or-nothing; `EOF` leaves the state
untouched because the Rust code only writes the cursor after the loop finishes. -/
def Lexer.skip (l : Lexer) (n : Nat) : Except LexError Unit × Lexer :=
  match skipLoop l.cursor n with
  | none => (.error .EOF, l)
  | some cs => (.ok (), { l with cursor := cs })

/-- Operation `Lexer::extract_one_greedy`: like `extract_one`, but on `Unexpected` it first
skips one character (the `self.skip(1)?` before re-raising the error). -/
def Lexer.extract_one_greedy (l : Lexer) (p : Char → Bool) :
    Except LexError (List Char) × Lexer :=
  match l.extract_one p with
  | (.error .Unexpected, l1) =>
    match l1.skip 1 with
    | (.error e, l2) => (.error e, l2)
    | (.ok _, l2) => (.error .Unexpected, l2)
  | other => other

/-- Operation `Lexer::mark`. -/
def Lexer.mark (l : Lexer) : Lexer := { l with cursor_saved := l.cursor }

/-- Operation `Lexer::rewind`. -/
def Lexer.rewind (l : Lexer) : Lexer := { l with cursor := l.cursor_saved }

/-- Operation `Lexer::consumed`: the Rust code recovers the consumed slice from the
pointer difference between the saved and current cursors; in the list model
that difference is the length difference, and the slice is the corresponding
prefix of the saved view. -/
def Lexer.consumed (l : Lexer) : List Char :=
  l.cursor_saved.take (l.cursor_saved.length - l.cursor.length)

/-- Operation `Lexer::remaining`. -/
def Lexer.remaining (l : Lexer) : List Char := l.cursor

/-- Operation `Lexer::is_empty`. -/
def Lexer.is_empty (l : Lexer) : Bool := l.cursor.isEmpty

/-- The ESC control character `0x1B`. -/
def escCh : Char := Char.ofNat 0x1B

/-- The BEL control character `0x07`. -/
def bellCh : Char := Char.ofNat 0x07

/-- Predicate `is_sequence_opener` of src/ansi.rs: exactly the ESC character. -/
def is_sequence_opener (c : Char) : Bool := c = escCh

/-- Predicate `is_sequence_finalizer`: `0x30..=0x7E`. -/
def is_sequence_finalizer (c : Char) : Bool := 0x30 ≤ c.toNat && c.toNat ≤ 0x7E

/-- Predicate `is_sequence_intermediate`: `0x20..=0x2F`. -/
def is_sequence_intermediate (c : Char) : Bool := 0x20 ≤ c.toNat && c.toNat ≤ 0x2F

/-- Predicate `is_csi_finalizer`: `0x40..=0x7E`. -/
def is_csi_finalizer (c : Char) : Bool := 0x40 ≤ c.toNat && c.toNat ≤ 0x7E

/-- Predicate `is_csi_parameter`: `0x30..=0x3F`. -/
def is_csi_parameter (c : Char) : Bool := 0x30 ≤ c.toNat && c.toNat ≤ 0x3F

/-- Predicate `is_csi_intermediate`: `0x20..=0x2F`. -/
def is_csi_intermediate (c : Char) : Bool := 0x20 ≤ c.toNat && c.toNat ≤ 0x2F

/-- Predicate `is_st_opener`: BEL or the sequence opener. -/
def is_st_opener (c : Char) : Bool := c = bellCh || is_sequence_opener c

/-- Structure `AnsiSequence` of src/ansi.rs: `ESC I* F`. -/
structure AnsiSequence where
  intermediates : List Char
  finalizer : List Char
deriving DecidableEq, Repr

/-- Structure `ControlSequence` of src/ansi.rs: `ESC '[' P* I* F`. -/
structure ControlSequence where
  parameters : List Char
  intermediates : List Char
  finalizer : List Char
deriving DecidableEq, Repr

/-- Structure `AnsiString` of src/ansi.rs: a string run closed by `ESC '\'` or BEL. -/
structure AnsiString where
  text : List Char
  finalizer : List Char
deriving DecidableEq, Repr

/-- Union `Sequence` of src/ansi.rs: the tagged union returned by top-level parsing. -/
inductive Sequence where
  | CSI (cs : ControlSequence)
  | OSC (hdr : AnsiSequence) (str : AnsiString)
  | Regular (seq : AnsiSequence)
deriving DecidableEq, Repr

/-- Parsing of `AnsiSequence` (its `impl Parse`): opener, intermediates run, greedy finalizer.
Each `?` converts the lexer error to `InvalidSequence`, keeping whatever state
the failing lexer operation left behind. -/
def AnsiSequence.parse (l : Lexer) : Except PError AnsiSequence × Lexer :=
  match l.extract_one is_sequence_opener with
  | (.error _, l1) => (.error .InvalidSequence, l1)
  | (.ok _, l1) =>
    match l1.extract is_sequence_intermediate with
    | (.error _, l2) => (.error .InvalidSequence, l2)
    | (.ok inter, l2) =>
      match l2.extract_one_greedy is_sequence_finalizer with
      | (.error _, l3) => (.error .InvalidSequence, l3)
      | (.ok fin, l3) => (.ok ⟨inter, fin⟩, l3)

/-- Parsing of `ControlSequence` (its `impl Parse`): opener, greedy probe that must be `[`,
then parameters, intermediates and a greedy finalizer. -/
def ControlSequence.parse (l : Lexer) : Except PError ControlSequence × Lexer :=
  match l.extract_one is_sequence_opener with
  | (.error _, l1) => (.error .InvalidSequence, l1)
  | (.ok _, l1) =>
    match l1.extract_one_greedy is_csi_finalizer with
    | (.error _, l2) => (.error .InvalidSequence, l2)
    | (.ok probe, l2) =>
      if probe = ['['] then
        match l2.extract is_csi_parameter with
        | (.error _, l3) => (.error .InvalidSequence, l3)
        | (.ok params, l3) =>
          match l3.extract is_csi_intermediate with
          | (.error _, l4) => (.error .InvalidSequence, l4)
          | (.ok inter, l4) =>
            match l4.extract_one_greedy is_csi_finalizer with
            | (.error _, l5) => (.error .InvalidSequence, l5)
            | (.ok fin, l5) => (.ok ⟨params, inter, fin⟩, l5)
      else (.error .InvalidSequence, l2)

/-- Parsing of `AnsiString` (its `impl Parse`): the payload is the run of non-terminator-opener
characters; the terminator is BEL, or ESC followed by a greedy backslash. -/
def AnsiString.parse (l : Lexer) : Except PError AnsiString × Lexer :=
  match l.extract (fun c => !is_st_opener c) with
  | (.error _, l1) => (.error .InvalidSequence, l1)
  | (.ok text, l1) =>
    match l1.extract_one_greedy is_st_opener with
    | (.error _, l2) => (.error .InvalidSequence, l2)
    | (.ok term, l2) =>
      if term = [bellCh] then (.ok ⟨text, [bellCh]⟩, l2)
      else if term = [escCh] then
        match l2.extract_one_greedy (fun c => c = '\\') with
        | (.error _, l3) => (.error .InvalidSequence, l3)
        | (.ok bs, l3) =>
          if bs = ['\\'] then (.ok ⟨text, [escCh, '\\']⟩, l3)
          else (.error .InvalidSequence, l3)
      else (.error .InvalidSequence, l2)

/-- Parsing of `Sequence` (its `impl Parse`): probe an `AnsiSequence` on a clone of the lexer,
then dispatch on the probed intermediates and finalizer against the real lexer. -/
def Sequence.parse (l : Lexer) : Except PError Sequence × Lexer :=
  match AnsiSequence.parse l with
  | (.error e, _) => (.error e, l)
  | (.ok la, _) =>
    if la.intermediates.isEmpty then
      match la.finalizer with
      | ['['] =>
        match ControlSequence.parse l with
        | (.error e, l1) => (.error e, l1)
        | (.ok cs, l1) => (.ok (.CSI cs), l1)
      | [']'] =>
        match AnsiSequence.parse l with
        | (.error e, l1) => (.error e, l1)
        | (.ok hdr, l1) =>
          match AnsiString.parse l1 with
          | (.error e, l2) => (.error e, l2)
          | (.ok s, l2) => (.ok (.OSC hdr s), l2)
      | _ =>
        match AnsiSequence.parse l with
        | (.error e, l1) => (.error e, l1)
        | (.ok sq, l1) => (.ok (.Regular sq), l1)
    else
      match AnsiSequence.parse l with
      | (.error e, l1) => (.error e, l1)
      | (.ok sq, l1) => (.ok (.Regular sq), l1)

/-- Lexer states reachable from `Lexer.new` by the public mutating operations. -/
inductive Reach : Lexer → Prop where
  | new (s : List Char) : Reach (Lexer.new s)
  | extract (l : Lexer) (p : Char → Bool) : Reach l → Reach (l.extract p).2
  | extract_one (l : Lexer) (p : Char → Bool) : Reach l → Reach (l.extract_one p).2
  | extract_one_greedy (l : Lexer) (p : Char → Bool) : Reach l → Reach (l.extract_one_greedy p).2
  | skip (l : Lexer) (n : Nat) : Reach l → Reach (l.skip n).2
  | mark (l : Lexer) : Reach l → Reach l.mark
  | rewind (l : Lexer) : Reach l → Reach l.rewind

lemma extractLoop_eq_dropWhile (p : Char → Bool) (cs : List Char) :
    extractLoop p cs = cs.dropWhile p := by
  induction cs with
  | nil => rfl
  | cons c cs ih =>
    simp only [extractLoop, List.dropWhile]
    cases h : p c <;> simp [ih]

lemma extract_nil (l : Lexer) (p : Char → Bool) (h : l.cursor = []) :
    l.extract p = (.error .EOF, l) := by
  simp [Lexer.extract, h]

lemma extract_cons (l : Lexer) (p : Char → Bool) (h : l.cursor ≠ []) :
    l.extract p =
      (.ok (l.cursor.takeWhile p), { l with cursor := l.cursor.dropWhile p }) := by
  have hlen : (l.cursor.takeWhile p).length + (l.cursor.dropWhile p).length =
      l.cursor.length := by
    rw [← List.length_append, List.takeWhile_append_dropWhile p l.cursor]
  have hsub : l.cursor.length - (l.cursor.dropWhile p).length =
      (l.cursor.takeWhile p).length := by
    omega
  have htake : l.cursor.take (l.cursor.takeWhile p).length = l.cursor.takeWhile p :=
    (List.prefix_iff_eq_take.mp ( List.takeWhile_prefix p)).symm
  simp [Lexer.extract, h, extractLoop_eq_dropWhile, hsub, htake]

lemma extract_one_nil (l : Lexer) (p : Char → Bool) (h : l.cursor = []) :
    l.extract_one p = (.error .EOF, l) := by
  simp [Lexer.extract_one, h]

lemma extract_one_pos (l : Lexer) (p : Char → Bool) (c : Char) (rest : List Char)
    (h : l.cursor = c :: rest) (hp : p c = true) :
    l.extract_one p = (.ok [c], { l with cursor := rest }) := by
  simp [Lexer.extract_one, h, hp]

lemma extract_one_neg (l : Lexer) (p : Char → Bool) (c : Char) (rest : List Char)
    (h : l.cursor = c :: rest) (hp : p c = false) :
    l.extract_one p = (.error .Unexpected, l) := by
  simp [Lexer.extract_one, h, hp]

lemma skipLoop_eq (cs : List Char) (n : Nat) :
    skipLoop cs n = if n ≤ cs.length then some (cs.drop n) else none := by
  induction cs generalizing n with
  | nil =>
    cases n with
    | zero => rfl
    | succ m => simp [skipLoop]
  | cons c cs ih =>
    cases n with
    | zero => rfl
    | succ m => simp [skipLoop, ih m]

lemma skip_le (l : Lexer) (n : Nat) (h : n ≤ l.cursor.length) :
    l.skip n = (.ok (), { l with cursor := l.cursor.drop n }) := by
  simp [Lexer.skip, skipLoop_eq, h]

lemma skip_gt (l : Lexer) (n : Nat) (h : l.cursor.length < n) :
    l.skip n = (.error .EOF, l) := by
  simp [Lexer.skip, skipLoop_eq, Nat.not_le_of_lt h]

lemma greedy_nil (l : Lexer) (p : Char → Bool) (h : l.cursor = []) :
    l.extract_one_greedy p = (.error .EOF, l) := by
  simp [Lexer.extract_one_greedy, extract_one_nil l p h]

lemma greedy_pos (l : Lexer) (p : Char → Bool) (c : Char) (rest : List Char)
    (h : l.cursor = c :: rest) (hp : p c = true) :
    l.extract_one_greedy p = (.ok [c], { l with cursor := rest }) := by
  simp [Lexer.extract_one_greedy, extract_one_pos l p c rest h hp]

lemma greedy_neg (l : Lexer) (p : Char → Bool) (c : Char) (rest : List Char)
    (h : l.cursor = c :: rest) (hp : p c = false) :
    l.extract_one_greedy p = (.error .Unexpected, { l with cursor := rest }) := by
  have hskip : l.skip 1 = (.ok (), { l with cursor := rest }) := by
    rw [skip_le l 1 (by simp [h]), h]
    simp
  simp [Lexer.extract_one_greedy, extract_one_neg l p c rest h hp, hskip]

lemma consumed_append (l : Lexer) (h : l.cursor <:+ l.cursor_saved) :
    l.consumed ++ l.cursor = l.cursor_saved := by
  obtain ⟨t, ht⟩ := h
  have hc : l.consumed = t := by
    simp only [Lexer.consumed, ← ht, List.length_append, Nat.add_sub_cancel]
    exact List.take_left t l.cursor
  rw [hc, ht]

lemma extract_state (l : Lexer) (p : Char → Bool) :
    (l.extract p).2.cursor <:+ l.cursor ∧ (l.extract p).2.cursor_saved = l.cursor_saved := by
  by_cases h : l.cursor = []
  · rw [extract_nil l p h]
    exact ⟨List.suffix_refl _, rfl⟩
  · rw [extract_cons l p h]
    exact ⟨⟨l.cursor.takeWhile p, List.takeWhile_append_dropWhile p l.cursor⟩, rfl⟩

lemma extract_one_state (l : Lexer) (p : Char → Bool) :
    (l.extract_one p).2.cursor <:+ l.cursor ∧
      (l.extract_one p).2.cursor_saved = l.cursor_saved := by
  rcases h : l.cursor with _ | ⟨c, rest⟩
  · rw [extract_one_nil l p h]
    exact ⟨⟨[], by simp [h]⟩, rfl⟩
  · cases hp : p c
    · rw [extract_one_neg l p c rest h hp]
      exact ⟨⟨[], by simp [h]⟩, rfl⟩
    · rw [extract_one_pos l p c rest h hp]
      exact ⟨⟨[c], by simp [h]⟩, rfl⟩

lemma skip_state (l : Lexer) (n : Nat) :
    (l.skip n).2.cursor <:+ l.cursor ∧ (l.skip n).2.cursor_saved = l.cursor_saved := by
  by_cases h : n ≤ l.cursor.length
  · rw [skip_le l n h]
    exact ⟨List.drop_suffix n l.cursor, rfl⟩
  · rw [skip_gt l n (Nat.lt_of_not_le h)]
    exact ⟨List.suffix_refl _, rfl⟩

lemma greedy_state (l : Lexer) (p : Char → Bool) :
    (l.extract_one_greedy p).2.cursor <:+ l.cursor ∧
      (l.extract_one_greedy p).2.cursor_saved = l.cursor_saved := by
  rcases h : l.cursor with _ | ⟨c, rest⟩
  · rw [greedy_nil l p h]
    exact ⟨⟨[], by simp [h]⟩, rfl⟩
  · cases hp : p c
    · rw [greedy_neg l p c rest h hp]
      exact ⟨⟨[c], by simp [h]⟩, rfl⟩
    · rw [greedy_pos l p c rest h hp]
      exact ⟨⟨[c], by simp [h]⟩, rfl⟩

lemma reach_suffix (l : Lexer) (h : Reach l) : l.cursor <:+ l.cursor_saved := by
  induction h with
  | new s => exact List.suffix_refl _
  | extract l p _ ih =>
    have hs := extract_state l p
    rw [hs.2]
    exact hs.1.trans ih
  | extract_one l p _ ih =>
    have hs := extract_one_state l p
    rw [hs.2]
    exact hs.1.trans ih
  | extract_one_greedy l p _ ih =>
    have hs := greedy_state l p
    rw [hs.2]
    exact hs.1.trans ih
  | skip l n _ ih =>
    have hs := skip_state l n
    rw [hs.2]
    exact hs.1.trans ih
  | mark l _ => exact List.suffix_refl _
  | rewind l _ => exact List.suffix_refl _

/-- C2: every lexer state reachable from construction by extract, extract_one,
extract_one_greedy, skip, mark and rewind keeps the remaining view a suffix of
the marked view, and `consumed ++ remaining` reassembles the marked view
exactly — no characters are lost or duplicated. -/
theorem c2_mark_consumed_invariant (l : Lexer) (h : Reach l) :
    l.remaining <:+ l.cursor_saved ∧ l.consumed ++ l.remaining = l.cursor_saved :=
  ⟨reach_suffix l h, consumed_append l (reach_suffix l h)⟩

/-- Witness for C2 at a concrete reachable state: extract the letter run of
`"ab1"`, mark, then extract one digit. -/
theorem c2_mark_consumed_invariant_witness :
    (((Lexer.new ['a', 'b', '1']).extract (fun c => c.isAlpha)).2.mark.extract_one
        (fun c => c.isDigit)).2.remaining <:+
      (((Lexer.new ['a', 'b', '1']).extract (fun c => c.isAlpha)).2.mark.extract_one
        (fun c => c.isDigit)).2.cursor_saved ∧
    (((Lexer.new ['a', 'b', '1']).extract (fun c => c.isAlpha)).2.mark.extract_one
          (fun c => c.isDigit)).2.consumed ++
        (((Lexer.new ['a', 'b', '1']).extract (fun c => c.isAlpha)).2.mark.extract_one
          (fun c => c.isDigit)).2.remaining =
      (((Lexer.new ['a', 'b', '1']).extract (fun c => c.isAlpha)).2.mark.extract_one
        (fun c => c.isDigit)).2.cursor_saved :=
  c2_mark_consumed_invariant _
    (Reach.extract_one _ _ (Reach.mark _ (Reach.extract _ _ (Reach.new _))))

/-- C3: `extract` fails with EOF exactly when the cursor was already exhausted,
changing nothing in that case; otherwise it returns the maximal run of leading
characters satisfying the predicate (possibly empty, with the cursor unchanged
in content up to that run) and advances past exactly that run. -/
theorem c3_extract_run (l : Lexer) (p : Char → Bool) :
    ((l.extract p).1 = .error .EOF ↔ l.cursor = []) ∧
    (l.cursor = [] → l.extract p = (.error .EOF, l)) ∧
    (l.cursor ≠ [] →
      l.extract p = (.ok (l.cursor.takeWhile p), { l with cursor := l.cursor.dropWhile p }) ∧
      (∀ c ∈ l.cursor.takeWhile p, p c = true) ∧
      l.cursor.takeWhile p ++ l.cursor.dropWhile p = l.cursor ∧
      (∀ c cs, l.cursor.dropWhile p = c :: cs → p c = false) ∧
      (∀ c cs, l.cursor = c :: cs → p c = false → l.extract p = (.ok [], l))) := by
  refine ⟨?_, extract_nil l p, ?_⟩
  · constructor
    · intro h
      by_contra hne
      rw [extract_cons l p hne] at h
      exact Except.noConfusion h
    · intro h
      rw [extract_nil l p h]
  · intro hne
    refine ⟨extract_cons l p hne, ?_, List.takeWhile_append_dropWhile p l.cursor, ?_, ?_⟩
    · intro c hc
      exact List.mem_takeWhile_imp hc
    · intro c cs hd
      have := List.head?_dropWhile_not p l.cursor
      rw [hd] at this
      simpa using this
    · intro c cs hcons hp
      have h1 : l.cursor.takeWhile p = [] := by
        rw [hcons, List.takeWhile_cons_of_neg (by simp [hp])]
      have h2 : l.cursor.dropWhile p = l.cursor := by
        rw [hcons, List.dropWhile_cons_of_neg (by simp [hp])]
      rw [extract_cons l p hne, h1, h2]

/-- Witness for C3: extracting letters from `"ab1"` yields `"ab"` and leaves `"1"`. -/
theorem c3_extract_run_witness :
    (Lexer.new ['a', 'b', '1']).extract (fun c => c.isAlpha) =
      (.ok ['a', 'b'], { cursor := ['1'], cursor_saved := ['a', 'b', '1'] }) := by
  have h := (c3_extract_run (Lexer.new ['a', 'b', '1']) (fun c => c.isAlpha)).2.2
    (by decide)
  rw [h.1]
  decide

/-- C4: `extract_one` fails with EOF (no state change) on exhausted input,
consumes exactly one matching character on success, and fails with Unexpected
(no state change) when the next character does not match. -/
theorem c4_extract_one (l : Lexer) (p : Char → Bool) :
    (l.cursor = [] → l.extract_one p = (.error .EOF, l)) ∧
    (∀ c rest, l.cursor = c :: rest →
      (p c = true → l.extract_one p = (.ok [c], { l with cursor := rest })) ∧
      (p c = false → l.extract_one p = (.error .Unexpected, l))) :=
  ⟨extract_one_nil l p, fun c rest h =>
    ⟨extract_one_pos l p c rest h, extract_one_neg l p c rest h⟩⟩

/-- Witness for C4: a mismatched one-character extraction leaves the lexer untouched. -/
theorem c4_extract_one_witness :
    (Lexer.new ['1']).extract_one (fun c => c.isAlpha) =
      (.error .Unexpected, Lexer.new ['1']) :=
  ((c4_extract_one (Lexer.new ['1']) (fun c => c.isAlpha)).2 '1' [] rfl).2 (by decide)

/-- C5: `extract_one_greedy` agrees with `extract_one` on success and on EOF,
but on a mismatch it advances the cursor by exactly one character (dropping the
mismatched character) before returning the Unexpected failure. -/
theorem c5_extract_one_greedy (l : Lexer) (p : Char → Bool) :
    (l.cursor = [] → l.extract_one_greedy p = l.extract_one p) ∧
    (∀ c rest, l.cursor = c :: rest →
      (p c = true → l.extract_one_greedy p = l.extract_one p) ∧
      (p c = false →
        l.extract_one_greedy p = (.error .Unexpected, { l with cursor := rest }))) := by
  refine ⟨?_, fun c rest h => ⟨?_, greedy_neg l p c rest h⟩⟩
  · intro h
    rw [greedy_nil l p h, extract_one_nil l p h]
  · intro hp
    rw [greedy_pos l p c rest h hp, extract_one_pos l p c rest h hp]

/-- Witness for C5: a greedy mismatch on `"12"` discards the `'1'` and still
reports Unexpected. -/
theorem c5_extract_one_greedy_witness :
    (Lexer.new ['1', '2']).extract_one_greedy (fun c => c.isAlpha) =
      (.error .Unexpected, { cursor := ['2'], cursor_saved := ['1', '2'] }) :=
  ((c5_extract_one_greedy (Lexer.new ['1', '2']) (fun c => c.isAlpha)).2 '1' ['2'] rfl).2
    (by decide)

/-- C6: `skip n` advances by exactly `n` characters when at least `n` remain,
and otherwise fails with EOF leaving the cursor completely unchanged — never a
partial advance. -/
theorem c6_skip_all_or_nothing (l : Lexer) (n : Nat) :
    (n ≤ l.cursor.length → l.skip n = (.ok (), { l with cursor := l.cursor.drop n })) ∧
    (l.cursor.length < n → l.skip n = (.error .EOF, l)) :=
  ⟨skip_le l n, skip_gt l n⟩

/-- Witness for C6: skipping 3 of 2 characters fails and changes nothing. -/
theorem c6_skip_all_or_nothing_witness :
    (Lexer.new ['a', 'b']).skip 3 = (.error .EOF, Lexer.new ['a', 'b']) :=
  (c6_skip_all_or_nothing (Lexer.new ['a', 'b']) 3).2 (by decide)

lemma extract_one_ok_inv (l : Lexer) (p : Char → Bool) (v : List Char) (l' : Lexer)
    (h : l.extract_one p = (.ok v, l')) :
    ∃ c rest, l.cursor = c :: rest ∧ p c = true ∧ v = [c] ∧
      l'.cursor = rest ∧ l'.cursor_saved = l.cursor_saved := by
  rcases hc : l.cursor with _ | ⟨c, rest⟩
  · rw [extract_one_nil l p hc] at h
    simp at h
  · cases hp : p c
    · rw [extract_one_neg l p c rest hc hp] at h
      simp at h
    · rw [extract_one_pos l p c rest hc hp] at h
      simp only [Prod.mk.injEq, Except.ok.injEq] at h
      exact ⟨c, rest, rfl, hp, h.1.symm, by rw [← h.2], by rw [← h.2]⟩

lemma extract_ok_inv (l : Lexer) (p : Char → Bool) (v : List Char) (l' : Lexer)
    (h : l.extract p = (.ok v, l')) :
    l.cursor ≠ [] ∧ v = l.cursor.takeWhile p ∧ l'.cursor = l.cursor.dropWhile p ∧
      l'.cursor_saved = l.cursor_saved := by
  by_cases hc : l.cursor = []
  · rw [extract_nil l p hc] at h
    simp at h
  · rw [extract_cons l p hc] at h
    simp only [Prod.mk.injEq, Except.ok.injEq] at h
    exact ⟨hc, h.1.symm, by rw [← h.2], by rw [← h.2]⟩

lemma greedy_ok_inv (l : Lexer) (p : Char → Bool) (v : List Char) (l' : Lexer)
    (h : l.extract_one_greedy p = (.ok v, l')) :
    ∃ c rest, l.cursor = c :: rest ∧ p c = true ∧ v = [c] ∧
      l'.cursor = rest ∧ l'.cursor_saved = l.cursor_saved := by
  rcases hc : l.cursor with _ | ⟨c, rest⟩
  · rw [greedy_nil l p hc] at h
    simp at h
  · cases hp : p c
    · rw [greedy_neg l p c rest hc hp] at h
      simp at h
    · rw [greedy_pos l p c rest hc hp] at h
      simp only [Prod.mk.injEq, Except.ok.injEq] at h
      exact ⟨c, rest, rfl, hp, h.1.symm, by rw [← h.2], by rw [← h.2]⟩

lemma ansiSequence_parse_ok (l : Lexer) (r : AnsiSequence) (lf : Lexer)
    (h : AnsiSequence.parse l = (.ok r, lf)) :
    l.cursor = escCh :: (r.intermediates ++ (r.finalizer ++ lf.cursor)) ∧
    (∀ c ∈ r.intermediates, is_sequence_intermediate c = true) ∧
    (∃ f, r.finalizer = [f] ∧ is_sequence_finalizer f = true) ∧
    lf.cursor_saved = l.cursor_saved := by
  unfold AnsiSequence.parse at h
  split at h
  · simp at h
  next v1 l1 heq1 =>
    split at h
    · simp at h
    next inter l2 heq2 =>
      split at h
      · simp at h
      next fin l3 heq3 =>
        simp only [Prod.mk.injEq, Except.ok.injEq] at h
        obtain ⟨hr, hlf⟩ := h
        obtain ⟨c, rest, hc, hop, _, hcur1, hsav1⟩ := extract_one_ok_inv l _ _ _ heq1
        obtain ⟨_, hv2, hcur2, hsav2⟩ := extract_ok_inv l1 _ _ _ heq2
        obtain ⟨f, rest2, hc2, hf, hv3, hcur3, hsav3⟩ := greedy_ok_inv l2 _ _ _ heq3
        have hcesc : c = escCh := by
          simpa [is_sequence_opener] using hop
        subst hcesc
        have hri : r.intermediates = inter := by rw [← hr]
        have hrf : r.finalizer = fin := by rw [← hr]
        have hlfc : lf.cursor = rest2 := by rw [← hlf, hcur3]
        have hlfs : lf.cursor_saved = l.cursor_saved := by
          rw [← hlf, hsav3, hsav2, hsav1]
        rw [hcur1] at hv2 hcur2
        rw [hcur2] at hc2
        refine ⟨?_, ?_, ⟨f, by rw [hrf, hv3], hf⟩, hlfs⟩
        · rw [hc, hri, hrf, hlfc, hv2, hv3]
          have hrest : rest = rest.takeWhile is_sequence_intermediate ++ (f :: rest2) := by
            rw [← hc2, List.takeWhile_append_dropWhile]
          conv_lhs => rw [hrest]
          simp
        · intro x hx
          rw [hri, hv2] at hx
          exact List.mem_takeWhile_imp hx

lemma ansiString_parse_ok (l : Lexer) (r : AnsiString) (lf : Lexer)
    (h : AnsiString.parse l = (.ok r, lf)) :
    (∀ c ∈ r.text, is_st_opener c = false) ∧
    (r.finalizer = [bellCh] ∨ r.finalizer = [escCh, '\\']) ∧
    l.cursor = r.text ++ (r.finalizer ++ lf.cursor) ∧
    lf.cursor_saved = l.cursor_saved := by
  unfold AnsiString.parse at h
  split at h
  · simp at h
  next text l1 heq1 =>
    split at h
    · simp at h
    next term l2 heq2 =>
      obtain ⟨hne, hv1, hcur1, hsav1⟩ := extract_ok_inv l _ _ _ heq1
      obtain ⟨t, rest2, hc1, hst, hv2, hcur2, hsav2⟩ := greedy_ok_inv l1 _ _ _ heq2
      rw [hcur1] at hc1
      have hdecomp : l.cursor = l.cursor.takeWhile (fun c => !is_st_opener c) ++
          (t :: rest2) := by
        conv_lhs =>
          rw [← List.takeWhile_append_dropWhile (fun c => !is_st_opener c) l.cursor]
        rw [hc1]
      have htext : ∀ c ∈ l.cursor.takeWhile (fun c => !is_st_opener c),
          is_st_opener c = false := by
        intro x hx
        have := List.mem_takeWhile_imp hx
        simpa using this
      by_cases hbell : term = [bellCh]
      · rw [if_pos hbell] at h
        simp only [Prod.mk.injEq, Except.ok.injEq] at h
        obtain ⟨hr, hlf⟩ := h
        have hrt : r.text = text := by rw [← hr]
        have hrf : r.finalizer = [bellCh] := by rw [← hr]
        have ht : t = bellCh := by
          rw [hv2] at hbell
          simpa using hbell
        refine ⟨?_, Or.inl hrf, ?_, by rw [← hlf, hsav2, hsav1]⟩
        · intro x hx
          rw [hrt, hv1] at hx
          exact htext x hx
        · rw [hrt, hrf, hv1, ← hlf, hcur2]
          conv_lhs => rw [hdecomp, ht]
          simp
      · rw [if_neg hbell] at h
        by_cases hesc : term = [escCh]
        · rw [if_pos hesc] at h
          split at h
          · simp at h
          next bs l3 heq3 =>
            obtain ⟨b, rest3, hc2, hbs, hv3, hcur3, hsav3⟩ := greedy_ok_inv l2 _ _ _ heq3
            have hb : b = '\\' := by
              simpa using hbs
            subst hb
            rw [if_pos (by rw [hv3])] at h
            simp only [Prod.mk.injEq, Except.ok.injEq] at h
            obtain ⟨hr, hlf⟩ := h
            have hrt : r.text = text := by rw [← hr]
            have hrf : r.finalizer = [escCh, '\\'] := by rw [← hr]
            have ht : t = escCh := by
              rw [hv2] at hesc
              simpa using hesc
            rw [hcur2] at hc2
            refine ⟨?_, Or.inr hrf, ?_, by rw [← hlf, hsav3, hsav2, hsav1]⟩
            · intro x hx
              rw [hrt, hv1] at hx
              exact htext x hx
            · rw [hrt, hrf, hv1, ← hlf, hcur3]
              conv_lhs => rw [hdecomp, ht, hc2]
              simp
        · rw [if_neg hesc] at h
          simp at h

/-- C7: `AnsiSequence` parsing consumes one ESC opener (failing with
`InvalidSequence` when the input is exhausted or does not start with ESC and
changing nothing in those cases), then a possibly-empty run of intermediates in
`0x20..0x2F`, then exactly one finalizer in `0x30..0x7E` via the greedy
extractor; and parsing `"\x1B\x1B"` fails with `InvalidSequence` leaving the
remaining input empty, because the greedy finalizer probe force-skips the
second ESC. -/
theorem c7_generic_sequence :
    (∀ l, l.cursor = [] → AnsiSequence.parse l = (.error .InvalidSequence, l)) ∧
    (∀ l c rest, l.cursor = c :: rest → is_sequence_opener c = false →
      AnsiSequence.parse l = (.error .InvalidSequence, l)) ∧
    (∀ l r lf, AnsiSequence.parse l = (.ok r, lf) →
      l.cursor = escCh :: (r.intermediates ++ (r.finalizer ++ lf.cursor)) ∧
      (∀ c ∈ r.intermediates, is_sequence_intermediate c = true) ∧
      (∃ f, r.finalizer = [f] ∧ is_sequence_finalizer f = true)) ∧
    ((AnsiSequence.parse (Lexer.new [escCh, escCh])).1 = .error .InvalidSequence ∧
      (AnsiSequence.parse (Lexer.new [escCh, escCh])).2.remaining = []) := by
  refine ⟨?_, ?_, ?_, by decide⟩
  · intro l hl
    unfold AnsiSequence.parse
    rw [extract_one_nil l _ hl]
  · intro l c rest hl hop
    unfold AnsiSequence.parse
    rw [extract_one_neg l _ c rest hl hop]
  · intro l r lf h
    obtain ⟨h1, h2, h3, _⟩ := ansiSequence_parse_ok l r lf h
    exact ⟨h1, h2, h3⟩

/-- Witness for C7: an input that does not start with ESC is rejected with no
state change. -/
theorem c7_generic_sequence_witness :
    AnsiSequence.parse (Lexer.new ['A']) = (.error .InvalidSequence, Lexer.new ['A']) :=
  c7_generic_sequence.2.1 (Lexer.new ['A']) 'A' [] rfl (by decide)

/-- C8: a successful `AnsiString` parse returns as payload a run of characters
none of which is a string-terminator opener, a terminator that is either the
one-character BEL or the two-character ESC-backslash, consuming exactly
payload-plus-terminator; and the three successive parses over
`"Test\x1B\\Strings\x07\x1B[33m"` yield `("Test", ESC-backslash)`,
`("Strings", BEL)`, then `InvalidSequence`. -/
theorem c8_string_run :
    (∀ l r lf, AnsiString.parse l = (.ok r, lf) →
      (∀ c ∈ r.text, is_st_opener c = false) ∧
      (r.finalizer = [bellCh] ∨ r.finalizer = [escCh, '\\']) ∧
      l.cursor = r.text ++ (r.finalizer ++ lf.cursor)) ∧
    ((AnsiString.parse (Lexer.new ("Test\x1B\\Strings\x07\x1B[33m".data))).1 =
        .ok ⟨"Test".data, [escCh, '\\']⟩ ∧
      (AnsiString.parse
          ((AnsiString.parse (Lexer.new ("Test\x1B\\Strings\x07\x1B[33m".data))).2)).1 =
        .ok ⟨"Strings".data, [bellCh]⟩ ∧
      (AnsiString.parse ((AnsiString.parse
          ((AnsiString.parse (Lexer.new ("Test\x1B\\Strings\x07\x1B[33m".data))).2)).2)).1 =
        .error .InvalidSequence) := by
  refine ⟨?_, by decide⟩
  intro l r lf h
  obtain ⟨h1, h2, h3, _⟩ := ansiString_parse_ok l r lf h
  exact ⟨h1, h2, h3⟩

/-- Witness for C8: the first string run of the example input, parsed directly. -/
theorem c8_string_run_witness :
    (∀ c ∈ ("Test".data : List Char), is_st_opener c = false) ∧
    (([escCh, '\\'] : List Char) = [bellCh] ∨ ([escCh, '\\'] : List Char) = [escCh, '\\']) ∧
    (Lexer.new ("Test\x1B\\Strings\x07\x1B[33m".data)).cursor =
      "Test".data ++ ([escCh, '\\'] ++
        (AnsiString.parse (Lexer.new ("Test\x1B\\Strings\x07\x1B[33m".data))).2.cursor) :=
  c8_string_run.1 (Lexer.new ("Test\x1B\\Strings\x07\x1B[33m".data))
    ⟨"Test".data, [escCh, '\\']⟩
    (AnsiString.parse (Lexer.new ("Test\x1B\\Strings\x07\x1B[33m".data))).2
    (by decide)

/-- The Regular outcome as the spec words it: the result of re-parsing a
generic sequence against the real cursor, wrapped as `Regular`. -/
def regularOf (r : Except PError AnsiSequence × Lexer) : Except PError Sequence × Lexer :=
  match r with
  | (.error e, l1) => (.error e, l1)
  | (.ok sq, l1) => (.ok (.Regular sq), l1)

/-- The CSI outcome as the spec words it: the result of parsing a control
sequence against the real cursor, wrapped as `CSI`. -/
def csiOf (r : Except PError ControlSequence × Lexer) : Except PError Sequence × Lexer :=
  match r with
  | (.error e, l1) => (.error e, l1)
  | (.ok cs, l1) => (.ok (.CSI cs), l1)

/-- The OSC outcome as the spec words it: parse a generic sequence (the OSC
header) against the real cursor, then a string run, in that order. -/
def oscOf (l : Lexer) : Except PError Sequence × Lexer :=
  match AnsiSequence.parse l with
  | (.error e, l1) => (.error e, l1)
  | (.ok hdr, l1) =>
    match AnsiString.parse l1 with
    | (.error e, l2) => (.error e, l2)
    | (.ok s, l2) => (.ok (.OSC hdr s), l2)

/-- The worked top-level example input `"\x1B7\x1B[38;2;10;25;255m\x1B]0;Title\x07"`. -/
def demoInput : List Char := "\x1B7\x1B[38;2;10;25;255m\x1B]0;Title\x07".data

/-- C1: top-level dispatch probes a generic sequence on a duplicate of the
cursor; a successful probe with non-empty intermediates yields a Regular
re-parse of the real cursor, and with empty intermediates the probed finalizer
selects CSI for `[`, OSC (header then string run) for `]`, and Regular
otherwise; over the worked example the three successive parses yield the
Regular, CSI and OSC values stated by the spec with nothing remaining. -/
theorem c1_toplevel_dispatch :
    (∀ l la lp, AnsiSequence.parse l = (.ok la, lp) →
      (la.intermediates ≠ [] → Sequence.parse l = regularOf (AnsiSequence.parse l)) ∧
      (la.intermediates = [] → la.finalizer = ['['] →
        Sequence.parse l = csiOf (ControlSequence.parse l)) ∧
      (la.intermediates = [] → la.finalizer = [']'] → Sequence.parse l = oscOf l) ∧
      (la.intermediates = [] → la.finalizer ≠ ['['] → la.finalizer ≠ [']'] →
        Sequence.parse l = regularOf (AnsiSequence.parse l))) ∧
    ((Sequence.parse (Lexer.new demoInput)).1 = .ok (.Regular ⟨[], ['7']⟩) ∧
      (Sequence.parse (Sequence.parse (Lexer.new demoInput)).2).1 =
        .ok (.CSI ⟨"38;2;10;25;255".data, [], ['m']⟩) ∧
      (Sequence.parse (Sequence.parse (Sequence.parse (Lexer.new demoInput)).2).2).1 =
        .ok (.OSC ⟨[], [']']⟩ ⟨"0;Title".data, [bellCh]⟩) ∧
      (Sequence.parse
        (Sequence.parse (Sequence.parse (Lexer.new demoInput)).2).2).2.remaining = []) := by
  refine ⟨?_, by decide⟩
  intro l la lp h
  refine ⟨?_, ?_, ?_, ?_⟩
  · intro hne
    have hemp : la.intermediates.isEmpty = false := by
      cases hi : la.intermediates
      · exact absurd hi hne
      · rfl
    unfold Sequence.parse
    rw [h]
    simp [hemp, regularOf]
  · intro hemp hfin
    have hemp' : la.intermediates.isEmpty = true := by
      rw [hemp]
      rfl
    unfold Sequence.parse
    rw [h]
    rcases hc : ControlSequence.parse l with ⟨rc, lc⟩
    rcases rc with ec | cs <;> simp [hemp', hfin, csiOf, hc]
  · intro hemp hfin
    have hemp' : la.intermediates.isEmpty = true := by
      rw [hemp]
      rfl
    unfold Sequence.parse
    rw [h]
    rcases hs : AnsiString.parse lp with ⟨rs, ls⟩
    rcases rs with es | s <;> simp [hemp', hfin, oscOf, h, hs]
  · intro hemp hne1 hne2
    have hemp' : la.intermediates.isEmpty = true := by
      rw [hemp]
      rfl
    unfold Sequence.parse
    rw [h]
    simp only [hemp', if_true]
    simp [regularOf]

/-- Witness for C1 at `"\x1B[33m"`: the probe returns finalizer `[` with empty
intermediates, so the top-level parse equals the CSI parse of the real cursor. -/
theorem c1_toplevel_dispatch_witness :
    Sequence.parse (Lexer.new "\x1B[33m".data) =
      csiOf (ControlSequence.parse (Lexer.new "\x1B[33m".data)) :=
  ((c1_toplevel_dispatch.1 (Lexer.new "\x1B[33m".data) ⟨[], ['[']⟩
      { cursor := ['3', '3', 'm'], cursor_saved := "\x1B[33m".data }
      (by decide)).2.1) rfl rfl

/-- C10: whenever the lookahead probe inside the top-level parse fails, the
error is returned and the caller's real cursor is completely unchanged — the
probe's forced skips happened only on the duplicated cursor. -/
theorem c10_probe_failure_leaves_cursor (l : Lexer) (e : PError) (lp : Lexer)
    (h : AnsiSequence.parse l = (.error e, lp)) :
    Sequence.parse l = (.error e, l) := by
  unfold Sequence.parse
  rw [h]

/-- Witness for C10: on `"A"` the probe fails and the real lexer is untouched. -/
theorem c10_probe_failure_leaves_cursor_witness :
    Sequence.parse (Lexer.new ['A']) = (.error .InvalidSequence, Lexer.new ['A']) :=
  c10_probe_failure_leaves_cursor (Lexer.new ['A']) .InvalidSequence (Lexer.new ['A'])
    (by decide)

lemma ansiSequence_parse_state (l : Lexer) :
    (AnsiSequence.parse l).2.cursor <:+ l.cursor ∧
      (AnsiSequence.parse l).2.cursor_saved = l.cursor_saved := by
  unfold AnsiSequence.parse
  split
  next e1 l1 heq1 =>
    have s1 := extract_one_state l is_sequence_opener
    rw [heq1] at s1
    exact s1
  next v1 l1 heq1 =>
    have s1 := extract_one_state l is_sequence_opener
    rw [heq1] at s1
    split
    next e2 l2 heq2 =>
      have s2 := extract_state l1 is_sequence_intermediate
      rw [heq2] at s2
      exact ⟨s2.1.trans s1.1, s2.2.trans s1.2⟩
    next inter l2 heq2 =>
      have s2 := extract_state l1 is_sequence_intermediate
      rw [heq2] at s2
      have t2 : l2.cursor <:+ l.cursor ∧ l2.cursor_saved = l.cursor_saved :=
        ⟨s2.1.trans s1.1, s2.2.trans s1.2⟩
      split
      next e3 l3 heq3 =>
        have s3 := greedy_state l2 is_sequence_finalizer
        rw [heq3] at s3
        exact ⟨s3.1.trans t2.1, s3.2.trans t2.2⟩
      next fin l3 heq3 =>
        have s3 := greedy_state l2 is_sequence_finalizer
        rw [heq3] at s3
        exact ⟨s3.1.trans t2.1, s3.2.trans t2.2⟩

lemma controlSequence_parse_state (l : Lexer) :
    (ControlSequence.parse l).2.cursor <:+ l.cursor ∧
      (ControlSequence.parse l).2.cursor_saved = l.cursor_saved := by
  unfold ControlSequence.parse
  split
  next e1 l1 heq1 =>
    have s1 := extract_one_state l is_sequence_opener
    rw [heq1] at s1
    exact s1
  next v1 l1 heq1 =>
    have s1 := extract_one_state l is_sequence_opener
    rw [heq1] at s1
    split
    next e2 l2 heq2 =>
      have s2 := greedy_state l1 is_csi_finalizer
      rw [heq2] at s2
      exact ⟨s2.1.trans s1.1, s2.2.trans s1.2⟩
    next probe l2 heq2 =>
      have s2 := greedy_state l1 is_csi_finalizer
      rw [heq2] at s2
      have t2 : l2.cursor <:+ l.cursor ∧ l2.cursor_saved = l.cursor_saved :=
        ⟨s2.1.trans s1.1, s2.2.trans s1.2⟩
      split
      · split
        next e3 l3 heq3 =>
          have s3 := extract_state l2 is_csi_parameter
          rw [heq3] at s3
          exact ⟨s3.1.trans t2.1, s3.2.trans t2.2⟩
        next params l3 heq3 =>
          have s3 := extract_state l2 is_csi_parameter
          rw [heq3] at s3
          have t3 : l3.cursor <:+ l.cursor ∧ l3.cursor_saved = l.cursor_saved :=
            ⟨s3.1.trans t2.1, s3.2.trans t2.2⟩
          split
          next e4 l4 heq4 =>
            have s4 := extract_state l3 is_csi_intermediate
            rw [heq4] at s4
            exact ⟨s4.1.trans t3.1, s4.2.trans t3.2⟩
          next inter l4 heq4 =>
            have s4 := extract_state l3 is_csi_intermediate
            rw [heq4] at s4
            have t4 : l4.cursor <:+ l.cursor ∧ l4.cursor_saved = l.cursor_saved :=
              ⟨s4.1.trans t3.1, s4.2.trans t3.2⟩
            split
            next e5 l5 heq5 =>
              have s5 := greedy_state l4 is_csi_finalizer
              rw [heq5] at s5
              exact ⟨s5.1.trans t4.1, s5.2.trans t4.2⟩
            next fin l5 heq5 =>
              have s5 := greedy_state l4 is_csi_finalizer
              rw [heq5] at s5
              exact ⟨s5.1.trans t4.1, s5.2.trans t4.2⟩
      · exact t2

lemma ansiString_parse_state (l : Lexer) :
    (AnsiString.parse l).2.cursor <:+ l.cursor ∧
      (AnsiString.parse l).2.cursor_saved = l.cursor_saved := by
  unfold AnsiString.parse
  split
  next e1 l1 heq1 =>
    have s1 := extract_state l (fun c => !is_st_opener c)
    rw [heq1] at s1
    exact s1
  next text l1 heq1 =>
    have s1 := extract_state l (fun c => !is_st_opener c)
    rw [heq1] at s1
    split
    next e2 l2 heq2 =>
      have s2 := greedy_state l1 is_st_opener
      rw [heq2] at s2
      exact ⟨s2.1.trans s1.1, s2.2.trans s1.2⟩
    next term l2 heq2 =>
      have s2 := greedy_state l1 is_st_opener
      rw [heq2] at s2
      have t2 : l2.cursor <:+ l.cursor ∧ l2.cursor_saved = l.cursor_saved :=
        ⟨s2.1.trans s1.1, s2.2.trans s1.2⟩
      split
      · exact t2
      · split
        · split
          next e3 l3 heq3 =>
            have s3 := greedy_state l2 (fun c => c = '\\')
            rw [heq3] at s3
            exact ⟨s3.1.trans t2.1, s3.2.trans t2.2⟩
          next bs l3 heq3 =>
            have s3 := greedy_state l2 (fun c => c = '\\')
            rw [heq3] at s3
            have t3 : l3.cursor <:+ l.cursor ∧ l3.cursor_saved = l.cursor_saved :=
              ⟨s3.1.trans t2.1, s3.2.trans t2.2⟩
            split
            · exact t3
            · exact t3
        · exact t2

lemma sequence_parse_state (l : Lexer) :
    (Sequence.parse l).2.cursor <:+ l.cursor ∧
      (Sequence.parse l).2.cursor_saved = l.cursor_saved := by
  unfold Sequence.parse
  split
  · exact ⟨List.suffix_refl _, rfl⟩
  next la l0 heq0 =>
    split
    · split
      · split
        next e1 l1 heq1 =>
          have sc := controlSequence_parse_state l
          rw [heq1] at sc
          exact sc
        next cs l1 heq1 =>
          have sc := controlSequence_parse_state l
          rw [heq1] at sc
          exact sc
      · split
        next e1 l1 heq1 => simp at heq1
        next hdr l1 heq1 =>
          simp only [Prod.mk.injEq, Except.ok.injEq] at heq1
          obtain ⟨hh, hl⟩ := heq1
          subst hl
          have sa := ansiSequence_parse_state l
          rw [heq0] at sa
          split
          next e2 l2 heq2 =>
            have ss := ansiString_parse_state l0
            rw [heq2] at ss
            exact ⟨ss.1.trans sa.1, ss.2.trans sa.2⟩
          next s l2 heq2 =>
            have ss := ansiString_parse_state l0
            rw [heq2] at ss
            exact ⟨ss.1.trans sa.1, ss.2.trans sa.2⟩
      · split
        next e1 l1 heq1 => simp at heq1
        next sq l1 heq1 =>
          simp only [Prod.mk.injEq, Except.ok.injEq] at heq1
          obtain ⟨hh, hl⟩ := heq1
          subst hl
          have sa := ansiSequence_parse_state l
          rw [heq0] at sa
          exact sa
    · split
      next e1 l1 heq1 => simp at heq1
      next sq l1 heq1 =>
        simp only [Prod.mk.injEq, Except.ok.injEq] at heq1
        obtain ⟨hh, hl⟩ := heq1
        subst hl
        have sa := ansiSequence_parse_state l
        rw [heq0] at sa
        exact sa

/-- Operation `Lexer::extract_one_greedy`, instrumented with the number of characters
consumed by the forced skip on mismatch (1 when the skip runs, 0 otherwise).
`extract_one_greedyN_fst` ties it to the uninstrumented operation. -/
def Lexer.extract_one_greedyN (l : Lexer) (p : Char → Bool) :
    (Except LexError (List Char) × Lexer) × Nat :=
  match l.extract_one p with
  | (.error .Unexpected, l1) =>
    match l1.skip 1 with
    | (.error e, l2) => ((.error e, l2), 0)
    | (.ok _, l2) => ((.error .Unexpected, l2), 1)
  | other => (other, 0)

lemma extract_one_greedyN_fst (l : Lexer) (p : Char → Bool) :
    (l.extract_one_greedyN p).1 = l.extract_one_greedy p := by
  unfold Lexer.extract_one_greedyN Lexer.extract_one_greedy
  rcases h : l.extract_one p with ⟨r, l1⟩
  rcases r with e | v
  · cases e
    · simp [h]
    · rcases h2 : l1.skip 1 with ⟨r2, l2⟩
      rcases r2 with e2 | u <;> simp [h, h2]
  · simp [h]

/-- Parsing of `ControlSequence` instrumented with the total number of characters
consumed by greedy forced skips; `controlSequence_parseN_fst` ties it to
`ControlSequence.parse`. -/
def ControlSequence.parseN (l : Lexer) :
    (Except PError ControlSequence × Lexer) × Nat :=
  match l.extract_one is_sequence_opener with
  | (.error _, l1) => ((.error .InvalidSequence, l1), 0)
  | (.ok _, l1) =>
    match l1.extract_one_greedyN is_csi_finalizer with
    | ((.error _, l2), n1) => ((.error .InvalidSequence, l2), n1)
    | ((.ok probe, l2), n1) =>
      if probe = ['['] then
        match l2.extract is_csi_parameter with
        | (.error _, l3) => ((.error .InvalidSequence, l3), n1)
        | (.ok params, l3) =>
          match l3.extract is_csi_intermediate with
          | (.error _, l4) => ((.error .InvalidSequence, l4), n1)
          | (.ok inter, l4) =>
            match l4.extract_one_greedyN is_csi_finalizer with
            | ((.error _, l5), n2) => ((.error .InvalidSequence, l5), n1 + n2)
            | ((.ok fin, l5), n2) => ((.ok ⟨params, inter, fin⟩, l5), n1 + n2)
      else ((.error .InvalidSequence, l2), n1)

lemma controlSequence_parseN_fst (l : Lexer) :
    (ControlSequence.parseN l).1 = ControlSequence.parse l := by
  unfold ControlSequence.parseN ControlSequence.parse
  rcases h1 : l.extract_one is_sequence_opener with ⟨r1, l1⟩
  rcases r1 with e1 | v1
  · simp [h1]
  · rcases h2 : l1.extract_one_greedyN is_csi_finalizer with ⟨⟨r2, l2⟩, n1⟩
    have h2f : l1.extract_one_greedy is_csi_finalizer = (r2, l2) := by
      rw [← extract_one_greedyN_fst, h2]
    rcases r2 with e2 | probe
    · simp [h1, h2, h2f]
    · by_cases hp : probe = ['[']
      · rcases h3 : l2.extract is_csi_parameter with ⟨r3, l3⟩
        rcases r3 with e3 | params
        · simp [h1, h2, h2f, hp, h3]
        · rcases h4 : l3.extract is_csi_intermediate with ⟨r4, l4⟩
          rcases r4 with e4 | inter
          · simp [h1, h2, h2f, hp, h3, h4]
          · rcases h5 : l4.extract_one_greedyN is_csi_finalizer with ⟨⟨r5, l5⟩, n2⟩
            have h5f : l4.extract_one_greedy is_csi_finalizer = (r5, l5) := by
              rw [← extract_one_greedyN_fst, h5]
            rcases r5 with e5 | fin <;> simp [h1, h2, h2f, hp, h3, h4, h5, h5f]
      · simp [h1, h2, h2f, hp]

/-- C9 counterexample: `ControlSequence` parsing of `"\x1B[12"` fails with
`InvalidSequence` after consuming all four characters, yet the instrumented
parser records zero forced-skip characters — the opener, the `[` probe and the
parameter run were all consumed by successful sub-extractions, so on failure
the cursor is NOT where the production started, and the advance is not a
greedy forced skip. -/
theorem c9_counterexample_consumed_without_skip :
    ControlSequence.parse (Lexer.new [escCh, '[', '1', '2']) =
      (.error .InvalidSequence, { cursor := [], cursor_saved := [escCh, '[', '1', '2'] }) ∧
    (ControlSequence.parseN (Lexer.new [escCh, '[', '1', '2'])).2 = 0 ∧
    ¬ ((ControlSequence.parseN (Lexer.new [escCh, '[', '1', '2'])).1.2.cursor.length +
          (ControlSequence.parseN (Lexer.new [escCh, '[', '1', '2'])).2 =
        (Lexer.new [escCh, '[', '1', '2']).cursor.length) := by
  decide

/-- C9 (amended): whenever a grammar production (GenericSequence,
ControlSequence, StringRun or top-level Sequence) fails, the cursor is never
rewound to where the production started: it stays exactly where the failing
step left it, retaining both the characters consumed by earlier successful
sub-extractions and any single forced-skip character of a greedy extraction,
so the final remaining input is always a suffix of the initial one. -/
theorem c9_failure_keeps_forward_progress :
    (∀ l e lf, AnsiSequence.parse l = (.error e, lf) → lf.cursor <:+ l.cursor) ∧
    (∀ l e lf, ControlSequence.parse l = (.error e, lf) → lf.cursor <:+ l.cursor) ∧
    (∀ l e lf, AnsiString.parse l = (.error e, lf) → lf.cursor <:+ l.cursor) ∧
    (∀ l e lf, Sequence.parse l = (.error e, lf) → lf.cursor <:+ l.cursor) := by
  refine ⟨fun l e lf h => ?_, fun l e lf h => ?_, fun l e lf h => ?_, fun l e lf h => ?_⟩
  · have s := ansiSequence_parse_state l
    rw [h] at s
    exact s.1
  · have s := controlSequence_parse_state l
    rw [h] at s
    exact s.1
  · have s := ansiString_parse_state l
    rw [h] at s
    exact s.1
  · have s := sequence_parse_state l
    rw [h] at s
    exact s.1

/-- Witness for the amended C9 at the counterexample input: the remaining
input after the failed CSI parse is a suffix of the original input. -/
theorem c9_failure_keeps_forward_progress_witness :
    (⟨[], [escCh, '[', '1', '2']⟩ : Lexer).cursor <:+
      (Lexer.new [escCh, '[', '1', '2']).cursor :=
  c9_failure_keeps_forward_progress.2.1 (Lexer.new [escCh, '[', '1', '2'])
    .InvalidSequence ⟨[], [escCh, '[', '1', '2']⟩ (by decide)

end AnsiOpt
